import Mathlib

/-
Verification development for the JAS-BMS salon booking portal.

The definitions below are a shallow embedding of the appointment-booking
logic found in the repository: the availability checker and the
reschedule flow of src/pages/customer/CancelReschedule.tsx and
src/pages/customer/Dashboard.tsx, the create flow and its availability
checker of src/pages/customer/BookAppointment.tsx, the staff
status-update flow of src/pages/staff/UpdateStatus.tsx, the business-hour
slot enumerator replicated across those pages, and the generic HTTP
helper of src/utils/api.ts.

The booking table is modelled as a list of rows; the remote query and
mutation calls are modelled by explicit failure flags (a flag set to true
stands for the remote call reporting an error, which the source code
catches). Timestamps produced by new Date().toISOString() are passed in
as an explicit argument.
-/

namespace JasBms

/-- The status union type of src/types/booking.d.ts:
pending, confirmed, cancelled, completed. -/
inductive BookingStatus where
  | pending
  | confirmed
  | cancelled
  | completed
deriving DecidableEq, Repr

/-- Rendering of a status value back to the string the source stores. -/
def BookingStatus.toStr : BookingStatus → String
  | .pending => "pending"
  | .confirmed => "confirmed"
  | .cancelled => "cancelled"
  | .completed => "completed"

/-- A row of the bookings table, with the columns the observed queries
read and write: id, service_id, customer_id, staff_id (nullable),
booking_date, booking_time, status, total_price, notes (nullable),
created_at, updated_at (null until first update). -/
structure Booking where
  id : String
  service_id : String
  customer_id : String
  staff_id : Option String
  booking_date : String
  booking_time : String
  status : BookingStatus
  total_price : Int
  notes : Option String
  created_at : String
  updated_at : Option String
deriving DecidableEq, Repr

/-- A row of the services table, as read by BookAppointment.tsx. -/
structure Service where
  id : String
  name : String
  price : Int
  durationMinutes : Nat
deriving DecidableEq, Repr

/-- A staff user, as read by BookAppointment.tsx. -/
structure StaffMember where
  id : String
  first_name : String
  last_name : String
deriving DecidableEq, Repr

/-- JavaScript truthiness of a string: false exactly on the empty
string. -/
def truthyStr (s : String) : Bool := decide (s ≠ "")

/-- JavaScript truthiness of a nullable string: false on null and on
the empty string. -/
def truthyOpt : Option String → Bool
  | none => false
  | some s => truthyStr s

/-- The row filter shared by both availability checkers:
.eq booking_date, .eq booking_time, .eq staff_id,
.in status [pending, confirmed]. -/
def conflictPred (date time staffId : String) (b : Booking) : Bool :=
  decide (b.booking_date = date ∧ b.booking_time = time ∧
    b.staff_id = some staffId ∧ (b.status = BookingStatus.pending ∨ b.status = BookingStatus.confirmed))

/-- The bookings query shared by both availability checkers. -/
def conflictQuery (t : List Booking) (date time staffId : String) : List Booking :=
  t.filter (conflictPred date time staffId)

/-- isTimeSlotAvailable of CancelReschedule.tsx / customer Dashboard.tsx.
The query is optionally narrowed with .neq id excludeBookingId when that
argument is truthy; on query failure (fail = true) the catch block
returns true. Otherwise the slot is available iff the result set is
empty. -/
def isTimeSlotAvailable (fail : Bool) (t : List Booking)
    (date time staffId : String) (excludeBookingId : Option String) : Bool :=
  if fail then
    true
  else
    let data : List Booking :=
      match excludeBookingId with
      | some ex =>
        if truthyStr ex then
          (conflictQuery t date time staffId).filter (fun b => decide (b.id ≠ ex))
        else
          conflictQuery t date time staffId
      | none => conflictQuery t date time staffId
    decide (data.length = 0)

/-- isTimeSlotAvailable of BookAppointment.tsx (create flow). It takes a
duration argument that the body never reads; the query is the same exact
triple match, with no exclusion. On query failure the catch block
returns true. -/
def isTimeSlotAvailableCreate (fail : Bool) (t : List Booking)
    (date time : String) (duration : Nat) (staffId : String) : Bool :=
  if fail then
    true
  else
    decide ((conflictQuery t date time staffId).length = 0)

/-- getAvailableTimeSlots, replicated identically in CancelReschedule.tsx,
BookAppointment.tsx and customer Dashboard.tsx: for hour from 9 up to
(but excluding) 18 push "HH:00", and push "HH:30" only when
hour < 18 - 1. The zero padding is padStart 2 with the zero digit. -/
def padStart2 (s : String) : String :=
  if s.length ≥ 2 then s else String.mk (List.replicate (2 - s.length) '0') ++ s

/-- The body of the slot-enumeration loop for one hour value. -/
def hourSlots (endHour hour : Nat) : List String :=
  [padStart2 (toString hour) ++ ":00"] ++
    (if hour < endHour - 1 then [padStart2 (toString hour) ++ ":30"] else [])

def getAvailableTimeSlots : List String :=
  let startHour := 9
  let endHour := 18
  ((List.range (endHour - startHour)).map (fun i => startHour + i)).flatMap (hourSlots endHour)

/-- An HTTP response as seen by callApi in src/utils/api.ts: its status
code, its status text, the message field of its parsed JSON body (none
when the body is not JSON or has no message field) and the raw body. -/
structure HttpResponse where
  status : Nat
  statusText : String
  bodyMessage : Option String
  body : String
deriving DecidableEq, Repr

/-- callApi of src/utils/api.ts, restricted to response handling: when
response.ok is false (status outside 200..299) it throws an Error whose
message is the body message when truthy, else "API Error: " followed by
the status text; a 204 response yields null (modelled Except.ok none);
any other ok response yields the parsed body. -/
def callApi (r : HttpResponse) : Except String (Option String) :=
  if ¬ (200 ≤ r.status ∧ r.status < 300) then
    Except.error
      (match r.bodyMessage with
        | some m => if truthyStr m then m else "API Error: " ++ r.statusText
        | none => "API Error: " ++ r.statusText)
  else if r.status = 204 then
    Except.ok none
  else
    Except.ok (some r.body)

/-- Lexicographic comparison of strings by their character lists,
used to state that the enumerated slots are strictly increasing. -/
def ltLex (a b : String) : Bool := decide (a.data < b.data)

/-- Bool-valued check that a list of strings is strictly increasing
in the lexicographic order. -/
def strictIncB : List String → Bool
  | a :: b :: rest => ltLex a b && strictIncB (b :: rest)
  | _ => true

/-- The outcome of a screen-level mutation handler: the bookings table
after the remote calls, the error message displayed by setError (if
any), and the success message displayed by setSuccess (if any). -/
structure FlowResult where
  table : List Booking
  error : Option String
  success : Option String
deriving DecidableEq, Repr

/-- The form state of BookAppointment.tsx at submit time. -/
structure CreateInput where
  selectedServiceId : String
  selectedStaffId : String
  selectedDate : String
  selectedTime : String
  notes : String
deriving DecidableEq, Repr

/-- The bookingData row built by handleSubmit of BookAppointment.tsx:
status pending, notes null when the form field is empty, created_at set
to the current timestamp, updated_at not set by the insert. The id is
the primary key the backend assigns to the inserted row. -/
def mkBooking (newId serviceId customerId staffId date time : String)
    (price : Int) (notes now : String) : Booking :=
  { id := newId
    service_id := serviceId
    customer_id := customerId
    staff_id := some staffId
    booking_date := date
    booking_time := time
    status := BookingStatus.pending
    total_price := price
    notes := if truthyStr notes then some notes else none
    created_at := now
    updated_at := none }

/-- handleSubmit of BookAppointment.tsx. It validates the form fields,
looks up the selected service and staff member, runs the availability
check for the selected staff, and only then inserts the new booking.
A failed insert (insertFails = true) is caught: the table is unchanged
and the error message is the backend message when truthy, else the
fallback text. -/
def handleSubmit (fail insertFails : Bool) (insertErrMsg newId now : String)
    (services : List Service) (staffMembers : List StaffMember)
    (user : Option String) (inp : CreateInput) (t : List Booking) : FlowResult :=
  match user with
  | none =>
    { table := t, error := some "Please select a service, staff member, date, and time.", success := none }
  | some uid =>
    if inp.selectedServiceId = "" ∨ inp.selectedStaffId = "" ∨
        inp.selectedDate = "" ∨ inp.selectedTime = "" then
      { table := t, error := some "Please select a service, staff member, date, and time.", success := none }
    else
      match services.find? (fun s => decide (s.id = inp.selectedServiceId)) with
      | none =>
        { table := t, error := some "Selected service not found. Please refresh the page and try again.", success := none }
      | some svc =>
        match staffMembers.find? (fun s => decide (s.id = inp.selectedStaffId)) with
        | none =>
          { table := t, error := some "Selected staff member not found.", success := none }
        | some stf =>
          if isTimeSlotAvailableCreate fail t inp.selectedDate inp.selectedTime
              svc.durationMinutes inp.selectedStaffId = false then
            { table := t
              error := some "This time slot is no longer available for the selected staff member. Please choose another time or staff member."
              success := none }
          else if insertFails then
            { table := t
              error := some (if truthyStr insertErrMsg then insertErrMsg else "Failed to book appointment. Please try again.")
              success := none }
          else
            { table := t ++ [mkBooking newId inp.selectedServiceId uid inp.selectedStaffId
                inp.selectedDate inp.selectedTime svc.price inp.notes now]
              error := none
              success := some ("Appointment booked successfully with " ++ stf.first_name ++ " "
                ++ stf.last_name ++ "! You will receive a confirmation soon.") }

/-- The updateData payload of handleConfirmReschedule applied to one
row: new booking_date, new booking_time, status pending, updated_at set
to the current timestamp. -/
def rescheduleRow (rd rt now : String) (b : Booking) : Booking :=
  { b with booking_date := rd, booking_time := rt,
           status := BookingStatus.pending, updated_at := some now }

/-- The supabase update issued by handleConfirmReschedule: apply the
updateData payload to every row matching .eq id and .eq customer_id. -/
def applyReschedule (t : List Booking) (bid uid rd rt now : String) : List Booking :=
  t.map (fun b =>
    if b.id = bid ∧ b.customer_id = uid then rescheduleRow rd rt now b else b)

/-- handleConfirmReschedule of CancelReschedule.tsx / customer
Dashboard.tsx. It validates the inputs, runs the availability check
(excluding the booking being rescheduled) only when the selected
booking has a truthy staffId, and then updates the row. A failed update
(updateFails = true) is caught with the table unchanged. -/
def handleConfirmReschedule (fail updateFails : Bool) (updateErrMsg now : String)
    (user : Option String) (selectedBooking : Option Booking)
    (rescheduleDate rescheduleTime : String) (t : List Booking) : FlowResult :=
  match selectedBooking, user with
  | some b, some uid =>
    if rescheduleDate = "" ∨ rescheduleTime = "" then
      { table := t, error := some "Please provide a new date and time.", success := none }
    else
      let blocked : Bool :=
        match b.staff_id with
        | some s => truthyStr s && ! isTimeSlotAvailable fail t rescheduleDate rescheduleTime s (some b.id)
        | none => false
      if blocked then
        { table := t, error := some "This time slot is no longer available. Please choose another time.", success := none }
      else if updateFails then
        { table := t
          error := some (if truthyStr updateErrMsg then updateErrMsg else "Failed to reschedule booking.")
          success := none }
      else
        { table := applyReschedule t b.id uid rescheduleDate rescheduleTime now
          error := none
          success := some "Booking rescheduled successfully! Status changed to pending for admin approval." }
  | _, _ =>
    { table := t, error := some "Please provide a new date and time.", success := none }

/-- One entry of the status dropdown built by getAvailableStatusOptions
in src/pages/staff/UpdateStatus.tsx. -/
structure StatusOption where
  value : BookingStatus
  label : String
  description : String
deriving DecidableEq, Repr

/-- getAvailableStatusOptions of src/pages/staff/UpdateStatus.tsx: the
status transitions offered by the staff update screen for each current
status. -/
def getAvailableStatusOptions (currentStatus : BookingStatus) : List StatusOption :=
  match currentStatus with
  | BookingStatus.pending =>
    [ { value := BookingStatus.confirmed, label := "Confirm",
        description := "Confirm this appointment with the customer" },
      { value := BookingStatus.cancelled, label := "Cancel",
        description := "Cancel this appointment" } ]
  | BookingStatus.confirmed =>
    [ { value := BookingStatus.completed, label := "Mark Complete",
        description := "Mark this appointment as completed" },
      { value := BookingStatus.cancelled, label := "Cancel",
        description := "Cancel this appointment" } ]
  | BookingStatus.completed =>
    [ { value := BookingStatus.confirmed, label := "Re-open",
        description := "Re-open this completed appointment" } ]
  | BookingStatus.cancelled =>
    [ { value := BookingStatus.pending, label := "Re-activate",
        description := "Re-activate this cancelled appointment" },
      { value := BookingStatus.confirmed, label := "Confirm",
        description := "Confirm this cancelled appointment" } ]

/-- The update payload of handleConfirmUpdate applied to one row: the
chosen status and a fresh updated_at timestamp. -/
def statusRow (ns : BookingStatus) (now : String) (x : Booking) : Booking :=
  { x with status := ns, updated_at := some now }

/-- handleConfirmUpdate of src/pages/staff/UpdateStatus.tsx: update the
status and updated_at of every row matching .eq id and .eq staff_id
(the staff member may only update bookings assigned to them). No
availability check is performed. -/
def handleConfirmUpdate (updateFails : Bool) (updateErrMsg now : String)
    (user : Option String) (selectedBooking : Option Booking)
    (newStatus : Option BookingStatus) (t : List Booking) : FlowResult :=
  match selectedBooking, newStatus, user with
  | some b, some ns, some uid =>
    if updateFails then
      { table := t
        error := some (if truthyStr updateErrMsg then updateErrMsg else "Failed to update booking status.")
        success := none }
    else
      { table := t.map (fun x =>
          if x.id = b.id ∧ x.staff_id = some uid then statusRow ns now x else x)
        error := none
        success := some ("Booking status updated to " ++ ns.toStr ++ " successfully!") }
  | _, _, _ => { table := t, error := none, success := none }

/-- The ids of the rows of the booking table are pairwise distinct
(primary-key uniqueness of the hosted storage). -/
def NodupIds (t : List Booking) : Prop := (t.map Booking.id).Nodup

/-- No row stores the empty string as its staff reference: an assigned
staff reference is a real user id. -/
def WFstaff (t : List Booking) : Prop := ∀ b ∈ t, b.staff_id ≠ some ""

/-- The conflict-avoidance invariant of the specification: for every
(staff reference, date, time) triple, at most one booking with status
pending or confirmed exists at that triple. -/
def ConflictFree (t : List Booking) : Prop :=
  ∀ s d tm, (conflictQuery t d tm s).length ≤ 1

/-- The combined invariant carried through the preservation proofs. -/
def Inv (t : List Booking) : Prop := NodupIds t ∧ WFstaff t ∧ ConflictFree t

/-- One mutation of the booking table through the two flows that run the
availability check, with no query failure (fail = false): a create via
handleSubmit of BookAppointment.tsx, or a reschedule via
handleConfirmReschedule of CancelReschedule.tsx. The create step may
assume the backend assigns a fresh primary key; the reschedule step may
assume the selected booking is a row of the table. -/
inductive Step : List Booking → List Booking → Prop
  | create (insertFails : Bool) (insertErrMsg newId now : String)
      (services : List Service) (staffMembers : List StaffMember)
      (user : Option String) (inp : CreateInput) (t : List Booking)
      (hfresh : newId ∉ t.map Booking.id) :
      Step t (handleSubmit false insertFails insertErrMsg newId now services staffMembers user inp t).table
  | reschedule (updateFails : Bool) (updateErrMsg now : String)
      (user : Option String) (sb : Option Booking) (rd rt : String) (t : List Booking)
      (hb : ∀ b, sb = some b → b ∈ t) :
      Step t (handleConfirmReschedule false updateFails updateErrMsg now user sb rd rt t).table

/-- The mutations of the claim: creates, reschedules, and staff
status updates via handleConfirmUpdate of UpdateStatus.tsx, where the
new status is one of the options the screen offers for the current
status of the selected booking. -/
inductive StepFull : List Booking → List Booking → Prop
  | create (insertFails : Bool) (insertErrMsg newId now : String)
      (services : List Service) (staffMembers : List StaffMember)
      (user : Option String) (inp : CreateInput) (t : List Booking)
      (hfresh : newId ∉ t.map Booking.id) :
      StepFull t (handleSubmit false insertFails insertErrMsg newId now services staffMembers user inp t).table
  | reschedule (updateFails : Bool) (updateErrMsg now : String)
      (user : Option String) (sb : Option Booking) (rd rt : String) (t : List Booking)
      (hb : ∀ b, sb = some b → b ∈ t) :
      StepFull t (handleConfirmReschedule false updateFails updateErrMsg now user sb rd rt t).table
  | statusUpdate (updateFails : Bool) (updateErrMsg now : String)
      (user : Option String) (sb : Option Booking) (ns : Option BookingStatus) (t : List Booking)
      (hb : ∀ b, sb = some b → b ∈ t)
      (hopt : ∀ b v, sb = some b → ns = some v →
        v ∈ (getAvailableStatusOptions b.status).map StatusOption.value) :
      StepFull t (handleConfirmUpdate updateFails updateErrMsg now user sb ns t).table

/-- A concrete service used in the executable scenarios below. -/
def svc1 : Service :=
  { id := "svc1", name := "Classic Facial", price := 50, durationMinutes := 60 }

/-- A concrete staff member used in the executable scenarios below. -/
def stf1 : StaffMember :=
  { id := "stf1", first_name := "Ann", last_name := "Lee" }

/-- A concrete create-form input targeting staff stf1 on 2024-06-01 at
10:00. -/
def inp1 : CreateInput :=
  { selectedServiceId := "svc1", selectedStaffId := "stf1",
    selectedDate := "2024-06-01", selectedTime := "10:00", notes := "" }

/-- Scenario step 0: the empty booking table. -/
def table0 : List Booking := []

/-- Scenario step 1: customer cust1 books stf1 at 2024-06-01 10:00. -/
def table1 : List Booking :=
  (handleSubmit false false "" "b1" "T0" [svc1] [stf1] (some "cust1") inp1 table0).table

/-- The row inserted at scenario step 1. -/
def bking1 : Booking := mkBooking "b1" "svc1" "cust1" "stf1" "2024-06-01" "10:00" 50 "" "T0"

/-- Scenario step 2: staff stf1 cancels booking b1 through the staff
status-update flow. -/
def table2 : List Booking :=
  (handleConfirmUpdate false "" "T1" (some "stf1") (some bking1)
    (some BookingStatus.cancelled) table1).table

/-- The row b1 after the cancellation of scenario step 2. -/
def bking1c : Booking := statusRow BookingStatus.cancelled "T1" bking1

/-- Scenario step 3: customer cust2 books the now-free slot of stf1 at
2024-06-01 10:00. -/
def table3 : List Booking :=
  (handleSubmit false false "" "b2" "T2" [svc1] [stf1] (some "cust2") inp1 table2).table

/-- Scenario step 4: staff stf1 re-activates the cancelled booking b1
through the staff status-update flow, with the option the screen offers
for a cancelled booking. -/
def table4 : List Booking :=
  (handleConfirmUpdate false "" "T3" (some "stf1") (some bking1c)
    (some BookingStatus.pending) table3).table

/-- The conflict set as the specification words it: the bookings with
exactly the given booking_date, booking_time and staff_id and with
status pending or confirmed, minus the booking whose id equals
excludeBookingId when that argument is supplied. Stated from the
specification for comparison against the checker. -/
def claimConflictSet (t : List Booking) (date time staffId : String)
    (ex : Option String) : List Booking :=
  (t.filter (fun b => decide (b.booking_date = date ∧ b.booking_time = time ∧
      b.staff_id = some staffId ∧
      (b.status = BookingStatus.pending ∨ b.status = BookingStatus.confirmed)))).filter
    (fun b => match ex with | some e => decide (b.id ≠ e) | none => true)

/-- The completed booking used in the terminal-state scenario. -/
def bkingDone : Booking := statusRow BookingStatus.completed "T4" bking1

/-- A table holding only the completed booking. -/
def tableDone : List Booking := [bkingDone]

/-- The table after the staff Re-open option is applied to the
completed booking. -/
def tableReopened : List Booking :=
  (handleConfirmUpdate false "" "T5" (some "stf1") (some bkingDone)
    (some BookingStatus.confirmed) tableDone).table

/-- A booking with no assigned staff, used in the skip-check
scenario. -/
def bkingNoStaff : Booking :=
  { id := "b7", service_id := "svc1", customer_id := "cust1", staff_id := none,
    booking_date := "2024-06-01", booking_time := "10:00",
    status := BookingStatus.confirmed, total_price := 50, notes := none,
    created_at := "T0", updated_at := none }

/-- A concrete failing HTTP response. -/
def resp404 : HttpResponse :=
  { status := 404, statusText := "Not Found", bodyMessage := some "booking not found", body := "" }

/-- A concrete no-content HTTP response. -/
def resp204 : HttpResponse :=
  { status := 204, statusText := "No Content", bodyMessage := none, body := "" }

theorem strictIncB_chain :
    ∀ l, strictIncB l = true → List.Chain' (fun a b : String => a.data < b.data) l
  | [], _ => trivial
  | [_], _ => by simp
  | a :: b :: rest, h => by
      rw [strictIncB] at h
      rw [Bool.and_eq_true] at h
      exact List.chain'_cons.mpr ⟨by simpa [ltLex] using h.1, strictIncB_chain (b :: rest) h.2⟩

theorem conflictPred_iff (date time staffId : String) (b : Booking) :
    conflictPred date time staffId b = true ↔
      b.booking_date = date ∧ b.booking_time = time ∧ b.staff_id = some staffId ∧
        (b.status = BookingStatus.pending ∨ b.status = BookingStatus.confirmed) := by
  simp [conflictPred]

theorem conflictQuery_append (t₁ t₂ : List Booking) (d tm s : String) :
    conflictQuery (t₁ ++ t₂) d tm s = conflictQuery t₁ d tm s ++ conflictQuery t₂ d tm s := by
  simp [conflictQuery]

theorem eq_of_mem_of_id_eq {t : List Booking} (hN : NodupIds t) {x y : Booking}
    (hx : x ∈ t) (hy : y ∈ t) (h : x.id = y.id) : x = y :=
  List.inj_on_of_nodup_map hN hx hy h

/-- The availability check of the create flow succeeds exactly when the
shared conflict query comes back empty. -/
theorem isTimeSlotAvailableCreate_true_iff (t : List Booking) (d tm : String)
    (dur : Nat) (s : String) :
    isTimeSlotAvailableCreate false t d tm dur s = true ↔ conflictQuery t d tm s = [] := by
  simp [isTimeSlotAvailableCreate, List.length_eq_zero]

/-- handleSubmit with no query failure preserves the combined invariant,
provided the inserted primary key is fresh. -/
theorem handleSubmit_preserves_Inv (insertFails : Bool)
    (insertErrMsg newId now : String) (services : List Service)
    (staffMembers : List StaffMember) (user : Option String) (inp : CreateInput)
    (t : List Booking) (hInv : Inv t) (hfresh : newId ∉ t.map Booking.id) :
    Inv (handleSubmit false insertFails insertErrMsg newId now services staffMembers user inp t).table := by
  cases user with
  | none => simpa [handleSubmit] using hInv
  | some uid =>
    rw [handleSubmit]
    by_cases hg : inp.selectedServiceId = "" ∨ inp.selectedStaffId = "" ∨
        inp.selectedDate = "" ∨ inp.selectedTime = ""
    · rw [if_pos hg]
      simpa using hInv
    · rw [if_neg hg]
      cases hsvc : services.find? (fun s => decide (s.id = inp.selectedServiceId)) with
      | none => simpa using hInv
      | some svc =>
        cases hstf : staffMembers.find? (fun s => decide (s.id = inp.selectedStaffId)) with
        | none => simpa using hInv
        | some stf =>
          dsimp only []
          by_cases hav : isTimeSlotAvailableCreate false t inp.selectedDate inp.selectedTime
              svc.durationMinutes inp.selectedStaffId = false
          · rw [if_pos hav]
            simpa using hInv
          · rw [if_neg hav]
            cases insertFails with
            | true => simpa using hInv
            | false =>
              simp only [Bool.false_eq_true, if_false]
              push_neg at hg
              obtain ⟨hg1, hg2, hg3, hg4⟩ := hg
              have hempty : conflictQuery t inp.selectedDate inp.selectedTime inp.selectedStaffId = [] := by
                rw [← isTimeSlotAvailableCreate_true_iff t _ _ svc.durationMinutes]
                cases h : isTimeSlotAvailableCreate false t inp.selectedDate inp.selectedTime
                    svc.durationMinutes inp.selectedStaffId with
                | true => rfl
                | false => exact absurd h hav
              refine ⟨?_, ?_, ?_⟩
              · -- primary keys stay distinct
                have : (t ++ [mkBooking newId inp.selectedServiceId uid inp.selectedStaffId
                    inp.selectedDate inp.selectedTime svc.price inp.notes now]).map Booking.id
                    = t.map Booking.id ++ [newId] := by
                  simp [mkBooking]
                show NodupIds _
                rw [NodupIds, this, List.nodup_append]
                refine ⟨hInv.1, List.nodup_singleton _, ?_⟩
                intro a ha hmem
                simp only [List.mem_singleton] at hmem
                subst hmem
                exact hfresh ha
              · -- staff references stay nonempty
                intro b hb
                rcases List.mem_append.mp hb with hb | hb
                · exact hInv.2.1 b hb
                · simp only [List.mem_singleton] at hb
                  subst hb
                  simp only [mkBooking, ne_eq, Option.some.injEq]
                  exact hg2
              · -- at most one active booking per triple
                intro s d tm
                rw [conflictQuery_append]
                rw [List.length_append]
                cases hpB : conflictPred d tm s (mkBooking newId inp.selectedServiceId uid
                    inp.selectedStaffId inp.selectedDate inp.selectedTime svc.price inp.notes now) with
                | false =>
                  have : conflictQuery [mkBooking newId inp.selectedServiceId uid inp.selectedStaffId
                      inp.selectedDate inp.selectedTime svc.price inp.notes now] d tm s = [] := by
                    simp [conflictQuery, hpB]
                  rw [this]
                  simpa using hInv.2.2 s d tm
                | true =>
                  have hfields := (conflictPred_iff d tm s _).mp hpB
                  simp only [mkBooking] at hfields
                  obtain ⟨hd, htm, hs, _⟩ := hfields
                  obtain rfl : inp.selectedDate = d := hd
                  obtain rfl : inp.selectedTime = tm := htm
                  obtain rfl : inp.selectedStaffId = s := Option.some.inj hs
                  rw [hempty]
                  have : conflictQuery [mkBooking newId inp.selectedServiceId uid inp.selectedStaffId
                      inp.selectedDate inp.selectedTime svc.price inp.notes now]
                      inp.selectedDate inp.selectedTime inp.selectedStaffId
                      = [mkBooking newId inp.selectedServiceId uid inp.selectedStaffId
                        inp.selectedDate inp.selectedTime svc.price inp.notes now] := by
                    simp [conflictQuery, hpB]
                  rw [this]
                  simp

/-- When the reschedule checker reports the slot free, every row of the
table matching the conflict filter (if any) is the excluded row
itself. -/
theorem id_eq_of_available {t : List Booking} {d tm s ex : String}
    (h : isTimeSlotAvailable false t d tm s (some ex) = true) :
    ∀ x ∈ t, conflictPred d tm s x = true → x.id = ex := by
  intro x hx hp
  rw [isTimeSlotAvailable] at h
  simp only [if_false, Bool.false_eq_true] at h
  cases htr : truthyStr ex with
  | false =>
    rw [htr] at h
    simp only [if_false, Bool.false_eq_true, decide_eq_true_eq, List.length_eq_zero] at h
    have : x ∈ conflictQuery t d tm s := List.mem_filter.mpr ⟨hx, hp⟩
    rw [h] at this
    exact absurd this (List.not_mem_nil x)
  | true =>
    rw [htr] at h
    simp only [if_true, decide_eq_true_eq, List.length_eq_zero] at h
    by_contra hne
    have : x ∈ (conflictQuery t d tm s).filter (fun b => decide (b.id ≠ ex)) :=
      List.mem_filter.mpr ⟨List.mem_filter.mpr ⟨hx, hp⟩, by simpa using hne⟩
    rw [h] at this
    exact absurd this (List.not_mem_nil x)

theorem applyReschedule_map_id (t : List Booking) (bid uid rd rt now : String) :
    (applyReschedule t bid uid rd rt now).map Booking.id = t.map Booking.id := by
  rw [applyReschedule, List.map_map]
  refine List.map_congr_left ?_
  intro x _
  simp only [Function.comp_apply]
  split
  · rfl
  · rfl

theorem applyReschedule_staff_id (t : List Booking) (bid uid rd rt now : String) :
    ∀ y ∈ applyReschedule t bid uid rd rt now, ∃ x ∈ t, y.staff_id = x.staff_id := by
  intro y hy
  rw [applyReschedule] at hy
  obtain ⟨x, hx, rfl⟩ := List.mem_map.mp hy
  refine ⟨x, hx, ?_⟩
  split
  · rfl
  · rfl

/-- When the update filter .eq id .eq customer_id matches no row, the
reschedule update leaves the table unchanged. -/
theorem applyReschedule_eq_self {t : List Booking} {b : Booking} {uid : String}
    (hN : NodupIds t) (hmem : b ∈ t) (hcust : b.customer_id ≠ uid)
    (rd rt now : String) : applyReschedule t b.id uid rd rt now = t := by
  rw [applyReschedule]
  refine (List.map_congr_left ?_).trans (List.map_id t)
  intro x hx
  have hc : ¬ (x.id = b.id ∧ x.customer_id = uid) := by
    rintro ⟨h1, h2⟩
    have hxb : x = b := eq_of_mem_of_id_eq hN hx hmem h1
    exact hcust (hxb ▸ h2)
  rw [if_neg hc]
  rfl

/-- handleConfirmReschedule with no query failure preserves the combined
invariant, provided the selected booking is a row of the table. -/
theorem handleConfirmReschedule_preserves_Inv (updateFails : Bool)
    (updateErrMsg now : String) (user : Option String) (sb : Option Booking)
    (rd rt : String) (t : List Booking) (hInv : Inv t)
    (hb : ∀ b, sb = some b → b ∈ t) :
    Inv (handleConfirmReschedule false updateFails updateErrMsg now user sb rd rt t).table := by
  obtain ⟨hN, hWF, hCF⟩ := hInv
  cases sb with
  | none => cases user <;> simpa [handleConfirmReschedule] using ⟨hN, hWF, hCF⟩
  | some b =>
    cases user with
    | none => simpa [handleConfirmReschedule] using ⟨hN, hWF, hCF⟩
    | some uid =>
      have hmem : b ∈ t := hb b rfl
      rw [handleConfirmReschedule]
      dsimp only []
      by_cases hg : rd = "" ∨ rt = ""
      · rw [if_pos hg]
        exact ⟨hN, hWF, hCF⟩
      · rw [if_neg hg]
        cases hblk : (match b.staff_id with
          | some s => truthyStr s && ! isTimeSlotAvailable false t rd rt s (some b.id)
          | none => false) with
        | true =>
          rw [if_pos rfl]
          exact ⟨hN, hWF, hCF⟩
        | false =>
          rw [if_neg Bool.false_ne_true]
          cases updateFails with
          | true => simpa using ⟨hN, hWF, hCF⟩
          | false =>
            simp only [Bool.false_eq_true, if_false]
            by_cases hcust : b.customer_id = uid
            case neg =>
              rw [applyReschedule_eq_self hN hmem hcust]
              exact ⟨hN, hWF, hCF⟩
            case pos =>
              have hNd : t.Nodup := List.Nodup.of_map Booking.id hN
              refine ⟨?_, ?_, ?_⟩
              · show NodupIds _
                rw [NodupIds, applyReschedule_map_id]
                exact hN
              · intro y hy
                obtain ⟨x, hx, hxy⟩ := applyReschedule_staff_id t b.id uid rd rt now y hy
                rw [hxy]
                exact hWF x hx
              · intro s d tm
                rw [conflictQuery, ← List.countP_eq_length_filter, applyReschedule, List.countP_map]
                simp only [Function.comp_def]
                have hperm := List.perm_cons_erase hmem
                rw [List.Perm.countP_eq _ hperm, List.countP_cons]
                have herase : ∀ x ∈ t.erase b, x ≠ b ∧ x ∈ t := by
                  intro x hx
                  exact (List.Nodup.mem_erase_iff hNd).mp hx
                have hcongr : List.countP (fun x => conflictPred d tm s
                    (if x.id = b.id ∧ x.customer_id = uid then rescheduleRow rd rt now x
                    else x)) (t.erase b) =
                    List.countP (conflictPred d tm s) (t.erase b) := by
                  refine List.countP_congr ?_
                  intro x hx
                  obtain ⟨hxb, hxt⟩ := herase x hx
                  have hc : ¬ (x.id = b.id ∧ x.customer_id = uid) := by
                    rintro ⟨h1, _⟩
                    exact hxb (eq_of_mem_of_id_eq hN hxt hmem h1)
                  rw [if_neg hc]
                rw [hcongr]
                rw [if_pos (show b.id = b.id ∧ b.customer_id = uid from ⟨rfl, hcust⟩)]
                cases hpb : conflictPred d tm s (rescheduleRow rd rt now b) with
                | false =>
                  simp only [Bool.false_eq_true, if_false, Nat.add_zero]
                  calc List.countP (conflictPred d tm s) (t.erase b)
                      ≤ List.countP (conflictPred d tm s) t :=
                        List.Sublist.countP_le _ (List.erase_sublist b t)
                    _ ≤ 1 := by
                        rw [List.countP_eq_length_filter]
                        exact hCF s d tm
                | true =>
                  simp only [if_true]
                  have hfields := (conflictPred_iff d tm s _).mp hpb
                  obtain ⟨hd, htm, hs, _⟩ := hfields
                  simp only [rescheduleRow] at hd htm hs
                  have hsne : s ≠ "" := by
                    intro hcontra
                    exact hWF b hmem (by rw [hs, hcontra])
                  have havail : isTimeSlotAvailable false t rd rt s (some b.id) = true := by
                    rw [hs] at hblk
                    dsimp only [] at hblk
                    rw [show truthyStr s = true by simpa [truthyStr] using hsne] at hblk
                    simpa using hblk
                  have hzero : List.countP (conflictPred d tm s) (t.erase b) = 0 := by
                    rw [List.countP_eq_zero]
                    intro x hx hpx
                    obtain ⟨hxb, hxt⟩ := herase x hx
                    have hpx' : conflictPred rd rt s x = true := by
                      rw [hd, htm]
                      exact hpx
                    have hxid : x.id = b.id := id_eq_of_available havail x hxt hpx'
                    exact hxb (eq_of_mem_of_id_eq hN hxt hmem hxid)
                  rw [hzero]

theorem Inv_nil : Inv ([] : List Booking) := by
  refine ⟨by simp [NodupIds], ?_, ?_⟩
  · intro b hb
    exact absurd hb (List.not_mem_nil b)
  · intro s d tm
    simp [conflictQuery]

theorem Step_preserves_Inv {t t' : List Booking} (h : Step t t') (hInv : Inv t) : Inv t' := by
  cases h with
  | create insertFails insertErrMsg newId now services staffMembers user inp t hfresh =>
    exact handleSubmit_preserves_Inv insertFails insertErrMsg newId now services
      staffMembers user inp t hInv hfresh
  | reschedule updateFails updateErrMsg now user sb rd rt t hb =>
    exact handleConfirmReschedule_preserves_Inv updateFails updateErrMsg now user sb rd rt t hInv hb

/-- C4 (amended): starting from the empty booking table, every state
reached through the create flow (with backend-assigned fresh primary
keys) and the reschedule flow, with no query failure, satisfies the
conflict-avoidance invariant: at most one booking with status pending or
confirmed per (staff reference, date, time) triple. The status-update
operations are not included: they run no availability check and can
violate the invariant (see the counterexample). -/
theorem reachable_conflictFree (t : List Booking)
    (h : Relation.ReflTransGen Step [] t) : ConflictFree t := by
  have hInv : Inv t := by
    induction h with
    | refl => exact Inv_nil
    | tail _ hstep ih => exact Step_preserves_Inv hstep ih
  exact hInv.2.2

theorem reachable_conflictFree_witness : ConflictFree table1 :=
  reachable_conflictFree table1
    (Relation.ReflTransGen.tail Relation.ReflTransGen.refl
      (Step.create false "" "b1" "T0" [svc1] [stf1] (some "cust1") inp1 table0 (by decide)))

/-- C4 (counterexample): a state reachable through creates and
guarded staff status updates that violates the conflict-avoidance
invariant: cancel an active booking, let another customer book the
freed slot, then re-activate the cancelled booking with the
Re-activate option the staff screen offers. -/
theorem statusUpdate_breaks_conflictFree :
    Relation.ReflTransGen StepFull [] table4 ∧ ¬ ConflictFree table4 := by
  constructor
  · have s1 : StepFull table0 table1 :=
      StepFull.create false "" "b1" "T0" [svc1] [stf1] (some "cust1") inp1 table0 (by decide)
    have s2 : StepFull table1 table2 := by
      refine StepFull.statusUpdate false "" "T1" (some "stf1") (some bking1)
        (some BookingStatus.cancelled) table1 ?_ ?_
      · intro b h
        cases h
        decide
      · intro b v h1 h2
        cases h1
        cases h2
        decide
    have s3 : StepFull table2 table3 :=
      StepFull.create false "" "b2" "T2" [svc1] [stf1] (some "cust2") inp1 table2 (by decide)
    have s4 : StepFull table3 table4 := by
      refine StepFull.statusUpdate false "" "T3" (some "stf1") (some bking1c)
        (some BookingStatus.pending) table3 ?_ ?_
      · intro b h
        cases h
        decide
      · intro b v h1 h2
        cases h1
        cases h2
        decide
    exact Relation.ReflTransGen.tail
      (Relation.ReflTransGen.tail
        (Relation.ReflTransGen.tail
          (Relation.ReflTransGen.tail Relation.ReflTransGen.refl s1) s2) s3) s4
  · intro h
    exact absurd (h "stf1" "2024-06-01" "10:00") (by decide)

/-- C1: for every booking-table state, date, time and staffId, the
availability checker returns true iff the conflict set described by the
specification is empty, and the booking passed as excludeBookingId is
never in that conflict set; the supplied exclude id is assumed nonempty
(a real row id), matching the JavaScript truthiness guard of the
source. -/
theorem isTimeSlotAvailable_iff_conflictSet_empty (t : List Booking)
    (date time staffId : String) (ex : Option String) (hex : ex ≠ some "") :
    (isTimeSlotAvailable false t date time staffId ex = true ↔
      claimConflictSet t date time staffId ex = []) ∧
    (∀ e, ex = some e → ∀ b ∈ claimConflictSet t date time staffId ex, b.id ≠ e) := by
  cases ex with
  | none =>
    constructor
    · rw [isTimeSlotAvailable]
      simp only [Bool.false_eq_true, if_false, decide_eq_true_eq, List.length_eq_zero]
      rw [claimConflictSet, List.filter_true]
      exact Iff.rfl
    · intro e he
      exact absurd he (by simp)
  | some e =>
    have he : e ≠ "" := fun hh => hex (by rw [hh])
    have htr : truthyStr e = true := by simpa [truthyStr] using he
    constructor
    · rw [isTimeSlotAvailable]
      simp only [Bool.false_eq_true, if_false, htr, if_true, decide_eq_true_eq,
        List.length_eq_zero]
      exact Iff.rfl
    · intro e' he' b hb
      obtain rfl : e = e' := by injection he'
      have hb2 := (List.mem_filter.mp hb).2
      simpa using hb2

theorem isTimeSlotAvailable_iff_conflictSet_empty_witness :
    (isTimeSlotAvailable false table1 "2024-06-01" "10:00" "stf1" (some "b1") = true ↔
      claimConflictSet table1 "2024-06-01" "10:00" "stf1" (some "b1") = []) ∧
    (∀ e, (some "b1" : Option String) = some e →
      ∀ b ∈ claimConflictSet table1 "2024-06-01" "10:00" "stf1" (some "b1"), b.id ≠ e) :=
  isTimeSlotAvailable_iff_conflictSet_empty table1 "2024-06-01" "10:00" "stf1"
    (some "b1") (by decide)

/-- C2: on query failure both availability checkers fail open: they
return true (the slot is treated as available) for every input, and
being total Bool-valued functions they surface no error. -/
theorem checker_fails_open (t : List Booking) (date time staffId : String)
    (ex : Option String) (duration : Nat) :
    isTimeSlotAvailable true t date time staffId ex = true ∧
    isTimeSlotAvailableCreate true t date time duration staffId = true :=
  ⟨rfl, rfl⟩

/-- C5 (counterexample): the slot enumeration does not produce 18
entries ending at "17:30". -/
theorem getAvailableTimeSlots_not_claim :
    ¬ (getAvailableTimeSlots.length = 18 ∧
       getAvailableTimeSlots.getLast? = some "17:30") := by
  decide

/-- C5 (amended): the slot enumeration with opening hour 9, closing
hour 18 and 30-minute interval produces exactly 17 zero-padded entries,
the first being "09:00" and the last "17:00" (the half-slot before
closing is skipped by the loop guard), and the sequence is strictly
increasing. -/
theorem getAvailableTimeSlots_spec :
    getAvailableTimeSlots.length = 17 ∧
    getAvailableTimeSlots.head? = some "09:00" ∧
    getAvailableTimeSlots.getLast? = some "17:00" ∧
    List.Chain' (fun a b : String => a.data < b.data) getAvailableTimeSlots :=
  ⟨by decide, by decide, by decide, strictIncB_chain _ (by decide)⟩

/-- C10: the create-flow availability checker ignores its duration
argument entirely, and a booking starting at any other time never
blocks availability: only exact start-time equality is checked. -/
theorem create_checker_ignores_duration (fail : Bool) (t : List Booking)
    (date time : String) (d1 d2 : Nat) (s : String) :
    isTimeSlotAvailableCreate fail t date time d1 s =
      isTimeSlotAvailableCreate fail t date time d2 s ∧
    ((∀ b ∈ t, b.booking_time ≠ time) →
      isTimeSlotAvailableCreate false t date time d1 s = true) := by
  constructor
  · rfl
  · intro h
    rw [isTimeSlotAvailableCreate]
    simp only [Bool.false_eq_true, if_false, decide_eq_true_eq, List.length_eq_zero,
      conflictQuery, List.filter_eq_nil_iff]
    intro b hb hp
    exact h b hb ((conflictPred_iff date time s b).mp hp).2.1

/-- C3 (counterexample): a create request targeting the occupied slot
of table1 leaves the table unchanged but reports the create-flow
conflict message, which is not equal to the literal string
"This time slot is no longer available...". -/
theorem conflict_message_not_the_claimed_literal :
    (handleSubmit false false "" "b9" "T9" [svc1] [stf1] (some "cust2") inp1 table1).table = table1 ∧
    (handleSubmit false false "" "b9" "T9" [svc1] [stf1] (some "cust2") inp1 table1).error =
      some "This time slot is no longer available for the selected staff member. Please choose another time or staff member." ∧
    "This time slot is no longer available for the selected staff member. Please choose another time or staff member." ≠
      "This time slot is no longer available..." := by
  refine ⟨by decide, by decide, by decide⟩

/-- C3 (amended): a create or reschedule request whose target slot is
occupied (availability check false) performs no insert or update and
reports the conflict message of its flow; both messages begin with
"This time slot is no longer available". -/
theorem occupied_slot_rejected
    (insertFails updateFails : Bool)
    (insertErrMsg newId now updateErrMsg now2 : String)
    (services : List Service) (staffMembers : List StaffMember)
    (uid uid2 : String) (inp : CreateInput) (t t2 : List Booking)
    (svc : Service) (stf : StaffMember) (b : Booking) (rd rt s : String) :
    ((inp.selectedServiceId ≠ "" → inp.selectedStaffId ≠ "" →
      inp.selectedDate ≠ "" → inp.selectedTime ≠ "" →
      services.find? (fun x => decide (x.id = inp.selectedServiceId)) = some svc →
      staffMembers.find? (fun x => decide (x.id = inp.selectedStaffId)) = some stf →
      isTimeSlotAvailableCreate false t inp.selectedDate inp.selectedTime
        svc.durationMinutes inp.selectedStaffId = false →
      (handleSubmit false insertFails insertErrMsg newId now services staffMembers
        (some uid) inp t).table = t ∧
      (handleSubmit false insertFails insertErrMsg newId now services staffMembers
        (some uid) inp t).error =
        some ("This time slot is no longer available" ++
          " for the selected staff member. Please choose another time or staff member."))) ∧
    (rd ≠ "" → rt ≠ "" → b.staff_id = some s → s ≠ "" →
      isTimeSlotAvailable false t2 rd rt s (some b.id) = false →
      (handleConfirmReschedule false updateFails updateErrMsg now2 (some uid2) (some b)
        rd rt t2).table = t2 ∧
      (handleConfirmReschedule false updateFails updateErrMsg now2 (some uid2) (some b)
        rd rt t2).error =
        some ("This time slot is no longer available" ++ ". Please choose another time.")) := by
  constructor
  · intro h1 h2 h3 h4 hsvc hstf hunav
    rw [handleSubmit]
    rw [if_neg (by simp [h1, h2, h3, h4])]
    rw [hsvc, hstf]
    dsimp only []
    rw [if_pos hunav]
    exact ⟨rfl, rfl⟩
  · intro hrd hrt hstaff hs hunav
    rw [handleConfirmReschedule]
    dsimp only []
    rw [if_neg (by simp [hrd, hrt])]
    rw [hstaff]
    dsimp only []
    rw [show truthyStr s = true by simpa [truthyStr] using hs, hunav]
    simp only [Bool.not_false, Bool.true_and, if_true]
    exact ⟨trivial, by decide⟩

theorem occupied_slot_rejected_witness :
    ((handleSubmit false false "" "b9" "T9" [svc1] [stf1] (some "cust2") inp1 table1).table = table1 ∧
     (handleSubmit false false "" "b9" "T9" [svc1] [stf1] (some "cust2") inp1 table1).error =
       some ("This time slot is no longer available" ++
         " for the selected staff member. Please choose another time or staff member.")) ∧
    ((handleConfirmReschedule false false "" "T9" (some "cust1") (some bking1c)
        "2024-06-01" "10:00" table3).table = table3 ∧
     (handleConfirmReschedule false false "" "T9" (some "cust1") (some bking1c)
        "2024-06-01" "10:00" table3).error =
       some ("This time slot is no longer available" ++ ". Please choose another time.")) :=
  ⟨(occupied_slot_rejected false false "" "b9" "T9" "" "T9" [svc1] [stf1] "cust2" "cust1"
      inp1 table1 table3 svc1 stf1 bking1c "2024-06-01" "10:00" "stf1").1
      (by decide) (by decide) (by decide) (by decide) (by decide) (by decide) (by decide),
   (occupied_slot_rejected false false "" "b9" "T9" "" "T9" [svc1] [stf1] "cust2" "cust1"
      inp1 table1 table3 svc1 stf1 bking1c "2024-06-01" "10:00" "stf1").2
      (by decide) (by decide) (by decide) (by decide) (by decide)⟩

/-- C6: a successful reschedule (validation passed, availability check
passed for the assigned staff, update succeeded) sets the booking
status to pending regardless of its prior status and overwrites its
date and time with the requested values. -/
theorem reschedule_resets_status_to_pending (fail : Bool)
    (updateErrMsg now uid rd rt s : String) (b : Booking) (t : List Booking)
    (hmem : b ∈ t) (hcust : b.customer_id = uid) (hrd : rd ≠ "") (hrt : rt ≠ "")
    (hstaff : b.staff_id = some s) (hs : s ≠ "")
    (havail : isTimeSlotAvailable fail t rd rt s (some b.id) = true) :
    (handleConfirmReschedule fail false updateErrMsg now (some uid) (some b) rd rt t).error = none ∧
    (handleConfirmReschedule fail false updateErrMsg now (some uid) (some b) rd rt t).success.isSome = true ∧
    rescheduleRow rd rt now b ∈
      (handleConfirmReschedule fail false updateErrMsg now (some uid) (some b) rd rt t).table ∧
    (rescheduleRow rd rt now b).status = BookingStatus.pending ∧
    (rescheduleRow rd rt now b).booking_date = rd ∧
    (rescheduleRow rd rt now b).booking_time = rt := by
  rw [handleConfirmReschedule]
  dsimp only []
  rw [if_neg (by simp [hrd, hrt])]
  rw [hstaff]
  dsimp only []
  rw [show truthyStr s = true by simpa [truthyStr] using hs, havail]
  simp only [Bool.not_true, Bool.and_false, Bool.false_eq_true, if_false]
  refine ⟨by trivial, by rfl, ?_, by rfl, by rfl, by rfl⟩
  rw [applyReschedule]
  have hfb : rescheduleRow rd rt now b =
      (fun x => if x.id = b.id ∧ x.customer_id = uid then rescheduleRow rd rt now x else x) b := by
    dsimp only []
    rw [if_pos (show b.id = b.id ∧ b.customer_id = uid from ⟨rfl, hcust⟩)]
  rw [hfb]
  exact List.mem_map_of_mem _ hmem

theorem reschedule_resets_status_to_pending_witness :
    (handleConfirmReschedule false false "" "T6" (some "cust1") (some bking1)
      "2024-06-02" "11:00" table1).error = none ∧
    (handleConfirmReschedule false false "" "T6" (some "cust1") (some bking1)
      "2024-06-02" "11:00" table1).success.isSome = true ∧
    rescheduleRow "2024-06-02" "11:00" "T6" bking1 ∈
      (handleConfirmReschedule false false "" "T6" (some "cust1") (some bking1)
        "2024-06-02" "11:00" table1).table ∧
    (rescheduleRow "2024-06-02" "11:00" "T6" bking1).status = BookingStatus.pending ∧
    (rescheduleRow "2024-06-02" "11:00" "T6" bking1).booking_date = "2024-06-02" ∧
    (rescheduleRow "2024-06-02" "11:00" "T6" bking1).booking_time = "11:00" :=
  reschedule_resets_status_to_pending false "" "T6" "cust1" "2024-06-02" "11:00" "stf1"
    bking1 table1 (by decide) (by decide) (by decide) (by decide) (by decide) (by decide)
    (by decide)

/-- C7 (counterexample): a completed booking is mutated through the
staff status-update flow using the Re-open option that the screen
offers for completed bookings, so completed is not terminal. -/
theorem completed_booking_mutated :
    BookingStatus.confirmed ∈
      (getAvailableStatusOptions BookingStatus.completed).map StatusOption.value ∧
    tableReopened = [statusRow BookingStatus.confirmed "T5" bkingDone] ∧
    (statusRow BookingStatus.confirmed "T5" bkingDone).status ≠ BookingStatus.completed := by
  refine ⟨by decide, by decide, by decide⟩

/-- C7 (amended): completed and cancelled are not terminal in the staff
status-update flow: from completed the screen offers exactly the
transition to confirmed (Re-open) and from cancelled exactly the
transitions to pending and confirmed (Re-activate, Confirm), and
applying an offered option mutates the selected booking
accordingly. -/
theorem staff_flow_reopens_closed_bookings :
    (getAvailableStatusOptions BookingStatus.completed).map StatusOption.value =
      [BookingStatus.confirmed] ∧
    (getAvailableStatusOptions BookingStatus.cancelled).map StatusOption.value =
      [BookingStatus.pending, BookingStatus.confirmed] ∧
    ∀ (updateErrMsg now uid : String) (b : Booking) (ns : BookingStatus) (t : List Booking),
      b ∈ t → b.staff_id = some uid →
      statusRow ns now b ∈
        (handleConfirmUpdate false updateErrMsg now (some uid) (some b) (some ns) t).table := by
  refine ⟨rfl, rfl, ?_⟩
  intro updateErrMsg now uid b ns t hmem hstaff
  rw [handleConfirmUpdate]
  try dsimp only []
  simp only [Bool.false_eq_true, if_false]
  have hfb : statusRow ns now b =
      (fun x => if x.id = b.id ∧ x.staff_id = some uid then statusRow ns now x else x) b := by
    dsimp only []
    rw [if_pos (show b.id = b.id ∧ b.staff_id = some uid from ⟨rfl, hstaff⟩)]
  rw [hfb]
  exact List.mem_map_of_mem _ hmem

theorem staff_flow_reopens_closed_bookings_witness :
    statusRow BookingStatus.confirmed "T5" bkingDone ∈
      (handleConfirmUpdate false "" "T5" (some "stf1") (some bkingDone)
        (some BookingStatus.confirmed) tableDone).table :=
  staff_flow_reopens_closed_bookings.2.2 "" "T5" "stf1" bkingDone BookingStatus.confirmed
    tableDone (by decide) (by decide)

/-- C8: a non-2xx response makes callApi raise an error carrying the
body message when one is present and nonempty, else "API Error: "
followed by the status text; a 204 response returns no content. -/
theorem callApi_spec (r : HttpResponse) :
    ((r.status < 200 ∨ 300 ≤ r.status) →
      ∃ e, callApi r = Except.error e ∧
        (∀ m, r.bodyMessage = some m → m ≠ "" → e = m) ∧
        ((r.bodyMessage = none ∨ r.bodyMessage = some "") →
          e = "API Error: " ++ r.statusText)) ∧
    (r.status = 204 → callApi r = Except.ok none) := by
  constructor
  · intro hbad
    have hcond : ¬ (200 ≤ r.status ∧ r.status < 300) := by
      rcases hbad with h | h
      · intro hc
        omega
      · intro hc
        omega
    rw [callApi, if_pos hcond]
    cases hm : r.bodyMessage with
    | none =>
      refine ⟨"API Error: " ++ r.statusText, rfl, ?_, fun _ => rfl⟩
      intro m hms
      exact absurd hms (by simp)
    | some m =>
      dsimp only []
      cases htr : truthyStr m with
      | true =>
        refine ⟨m, by simp, ?_, ?_⟩
        · intro m' hm'
          injection hm' with hme
          intro _
          exact hme
        · intro hcontra
          rcases hcontra with h | h
          · exact absurd h (by simp)
          · injection h with hme
            subst hme
            simp [truthyStr] at htr
      | false =>
        have hme : m = "" := by simpa [truthyStr] using htr
        refine ⟨"API Error: " ++ r.statusText, by simp, ?_, fun _ => rfl⟩
        intro m' hm' hne
        injection hm' with hmm
        subst hmm
        exact absurd hme hne
  · intro h204
    have hok : 200 ≤ r.status ∧ r.status < 300 := by omega
    rw [callApi, if_neg (by simpa using hok), if_pos h204]

theorem callApi_spec_witness :
    (∃ e, callApi resp404 = Except.error e ∧
      (∀ m, resp404.bodyMessage = some m → m ≠ "" → e = m) ∧
      ((resp404.bodyMessage = none ∨ resp404.bodyMessage = some "") →
        e = "API Error: " ++ resp404.statusText)) ∧
    callApi resp204 = Except.ok none :=
  ⟨(callApi_spec resp404).1 (by decide), (callApi_spec resp204).2 (by decide)⟩

/-- C9: a reschedule of a booking with no truthy staff reference skips
the availability check entirely (the result is the same for a failing
and a succeeding query, and for any table contents) and unconditionally
applies the update, which writes the new date and time and sets status
pending. -/
theorem reschedule_without_staff_skips_check (fail : Bool)
    (updateErrMsg now uid rd rt : String) (b : Booking) (t : List Booking)
    (hrd : rd ≠ "") (hrt : rt ≠ "") (hstaff : truthyOpt b.staff_id = false) :
    handleConfirmReschedule fail false updateErrMsg now (some uid) (some b) rd rt t =
      { table := applyReschedule t b.id uid rd rt now
        error := none
        success := some "Booking rescheduled successfully! Status changed to pending for admin approval." } := by
  rw [handleConfirmReschedule]
  dsimp only []
  rw [if_neg (by simp [hrd, hrt])]
  cases hsid : b.staff_id with
  | none => rfl
  | some s =>
    dsimp only []
    have hts : truthyStr s = false := by
      rw [hsid] at hstaff
      simpa [truthyOpt] using hstaff
    rw [hts]
    rfl

theorem reschedule_without_staff_skips_check_witness :
    handleConfirmReschedule true false "" "T7" (some "cust1") (some bkingNoStaff)
      "2024-06-03" "12:00" [bkingNoStaff, bking1] =
      { table := applyReschedule [bkingNoStaff, bking1] "b7" "cust1" "2024-06-03" "12:00" "T7"
        error := none
        success := some "Booking rescheduled successfully! Status changed to pending for admin approval." } :=
  reschedule_without_staff_skips_check true "" "T7" "cust1" "2024-06-03" "12:00"
    bkingNoStaff [bkingNoStaff, bking1] (by decide) (by decide) (by decide)

theorem create_checker_ignores_duration_witness :
    (isTimeSlotAvailableCreate false table1 "2024-06-01" "11:00" 60 "stf1" =
      isTimeSlotAvailableCreate false table1 "2024-06-01" "11:00" 90 "stf1") ∧
    isTimeSlotAvailableCreate false table1 "2024-06-01" "11:00" 60 "stf1" = true :=
  ⟨(create_checker_ignores_duration false table1 "2024-06-01" "11:00" 60 90 "stf1").1,
   (create_checker_ignores_duration false table1 "2024-06-01" "11:00" 60 90 "stf1").2
     (by decide)⟩

end JasBms
